import Mathlib

/-!
# Verification of the Catan board generator

A shallow embedding of the board-generation core of `main.py`:
the fixed adjacency graph, the resource pools, the shuffle / desert-insert /
red-check generation loop, and the read-only queries (`direction`,
`_edges_for`, the center tile).

Randomness is modelled by universally quantified inputs: the result of each
`random.shuffle` call becomes a list parameter constrained (in the theorems)
to be a permutation of the pool it shuffles, and `random.randrange(n+1)` becomes a `Nat` parameter bounded by `n`.
-/

namespace Catan

/-- The six compass directions, the string enum `('E','SE','SW','W','NW','NE')`
of the source. -/
inductive Dir
  | E | SE | SW | W | NW | NE
deriving DecidableEq, Repr

/-- The tile record `Tile = collections.namedtuple('Tile', ['id', 'terrain', 'value'])`.
Terrain is the single-character code used by the source; `value` is `None`
for the desert tile. -/
structure Tile where
  id : Nat
  terrain : Char
  value : Option Nat
deriving DecidableEq, Repr

/-- A directed edge `(from, to, direction)` of `Board._graph`. -/
abbrev Edge := Nat × Nat × Dir

/-- The compass inverse table `_direction_pairs`. -/
def _direction_pairs : Dir → Dir
  | .E => .W
  | .SW => .NE
  | .SE => .NW
  | .W => .E
  | .NE => .SW
  | .NW => .SE

/-- Edge inversion `invert(edge)`: swap the endpoints and invert the direction. -/
def invert (e : Edge) : Edge :=
  (e.2.1, e.1, _direction_pairs e.2.2)

/-- The fixed terrain pool `Board._terrain` (18 entries, no desert). -/
def _terrain : List Char :=
  ['F', 'F', 'F', 'F', 'P', 'P', 'P', 'P', 'H', 'H', 'H', 'H',
   'M', 'M', 'M', 'C', 'C', 'C']

/-- The fixed ordered numeric-value pool `Board._numbers` (18 entries). -/
def _numbers : List Nat :=
  [5, 2, 6, 3, 8, 10, 9, 12, 11, 4, 8, 10, 9, 4, 5, 6, 3, 11]

/-- The fixed port-kind pool `Board._ports` (9 entries). -/
def _ports : List Char :=
  ['?', 'O', 'G', '?', 'L', 'B', '?', '?', 'W']

/-- The fixed adjacency graph `Board._graph` of the classic 19-tile layout. -/
def _graph : List Edge :=
  [(1,  2,  .SW), (1,  12, .E ), (1,  13, .SE),
   (2,  3,  .SW), (2,  13, .E ), (2,  14, .SE),
   (3,  4,  .SE), (3,  14, .E ),
   (4,  5,  .SE), (4,  14, .NE), (4,  15, .E ),
   (5,  6,  .E ), (5,  15, .NE),
   (6,  7,  .E ), (6,  15, .NW), (6,  16, .NE),
   (7,  8,  .NE), (7,  16, .NW),
   (8,  9,  .NE), (8,  16, .W ), (8,  17, .NW),
   (9,  10, .NW), (9,  17, .W ),
   (10, 11, .NW), (10, 17, .SW), (10, 18, .W ),
   (11, 12, .W ), (11, 18, .SW),
   (12, 13, .SW), (12, 18, .SE),
   (13, 14, .SW), (13, 18, .E ), (13, 19, .SE),
   (14, 15, .SE), (14, 19, .E ),
   (15, 16, .E ), (15, 19, .NE),
   (16, 17, .NE), (16, 19, .NW),
   (17, 18, .NW), (17, 19, .W ),
   (18, 19, .SW)]

/-- The 9 fixed port anchor points `Board._port_locations`. -/
def _port_locations : List (Nat × Dir) :=
  [(1, .NW), (2, .W), (4, .W),
   (5, .SW), (6, .SE), (8, .SE),
   (9, .E), (10, .NE), (12, .NE)]

/-- The error outcomes of the core: a missing config key
(Python raises `KeyError` on the `options[...]` dict access; the spec calls
this `ConfigurationError`) and a `direction` query on non-adjacent tiles
(Python raises `StopIteration` from `next(...)`; the spec calls this
`NotAdjacentError`). -/
inductive GenErr
  | configurationError
  | notAdjacentError
deriving DecidableEq, Repr

/-- The `options` dict: a finite map from string keys to booleans. -/
abbrev Options := List (String × Bool)

/-- Dict access `self.options[key]`; `KeyError` (= `ConfigurationError`)
when the key is absent. -/
def getOption (opts : Options) (key : String) : Except GenErr Bool :=
  match opts.lookup key with
  | some b => .ok b
  | none => .error .configurationError

/-- One attempt's worth of randomness: the shuffled copy of the terrain pool,
the shuffled copies of the numbers and port pools (used only when the
corresponding flag is set), and the desert insertion position
`random.randrange(len(tile_data) + 1)`. -/
structure AttemptInput where
  terrain : List Char
  numbers : List Nat
  ports : List Char
  desertPos : Nat
deriving DecidableEq, Repr

/-- The numbers list actually zipped with the terrain:
`random.shuffle(numbers)` happens iff `randomize_production`. -/
def numbersUsed (rp : Bool) (inp : AttemptInput) : List Nat :=
  if rp then inp.numbers else _numbers

/-- The port-kind list actually assigned:
`random.shuffle(ports)` happens iff `randomize_ports`. -/
def portsUsed (rps : Bool) (inp : AttemptInput) : List Char :=
  if rps then inp.ports else _ports

/-- The `tile_data` list of one attempt:
`list(zip(terrain, numbers))` with `('D', None)` inserted at `desertPos`. -/
def tileDataOf (rp : Bool) (inp : AttemptInput) : List (Char × Option Nat) :=
  ((inp.terrain.zip ((numbersUsed rp inp).map some))).insertIdx
    inp.desertPos ('D', none)

/-- The test `t[1] in (6, 8)` on a tile's value slot (`None in (6, 8)` is false). -/
def isRed (v : Option Nat) : Bool :=
  v == some 6 || v == some 8

/-- The validity check `Board._check_red_placement(tiles)`: no graph edge may join two tiles
whose values are both in `{6, 8}`. -/
def _check_red_placement (tiles : List (Char × Option Nat)) : Bool :=
  _graph.all fun e =>
    !(isRed (tiles.getD (e.1 - 1) ('?', none)).2 &&
      isRed (tiles.getD (e.2.1 - 1) ('?', none)).2)

/-- The comprehension `[Tile(id=i, terrain=t, value=v) for i, (t, v) in enumerate(tile_data, 1)]`. -/
def mkTiles (tile_data : List (Char × Option Nat)) : List Tile :=
  tile_data.enum.map fun p => ⟨p.1 + 1, p.2.1, p.2.2⟩

/-- The data produced by one successful pass of `Board._generate`:
the tile list and `self.ports`. -/
structure GenResult where
  tiles : List Tile
  ports : List (Nat × Dir × Char)
deriving DecidableEq, Repr

/-- One iteration of the `while True` loop of `Board._generate`:
read both option keys (dict access, `KeyError` when absent), build
`self.ports` and `tile_data`, and either reject the attempt
(`continue`, modelled as `.ok none`) when `randomize_production` is set and
the red check fails, or return the tile list. -/
def generateAttempt (opts : Options) (inp : AttemptInput) :
    Except GenErr (Option GenResult) :=
  match opts.lookup "randomize_production" with
  | none => .error .configurationError
  | some rp =>
    match opts.lookup "randomize_ports" with
    | none => .error .configurationError
    | some rps =>
      if rp && !_check_red_placement (tileDataOf rp inp) then
        .ok none
      else
        .ok (some ⟨mkTiles (tileDataOf rp inp),
          (_port_locations.zip (portsUsed rps inp)).map
            fun p => (p.1.1, p.1.2, p.2)⟩)

/-- The `while True` retry loop of `Board._generate`, driven by a stream of
attempt inputs (one per iteration); `.ok none` models running out of the
supplied randomness (the Python loop would keep drawing fresh randomness). -/
def generateLoop (opts : Options) : List AttemptInput →
    Except GenErr (Option GenResult)
  | [] => .ok none
  | inp :: rest =>
    match generateAttempt opts inp with
    | .error e => .error e
    | .ok (some r) => .ok (some r)
    | .ok none => generateLoop opts rest

/-- The lookup `Board._edges_for(tile)` on a tile id: edges stored with `from = i`, then
inverses of edges stored with `to = i`. -/
def _edges_for (i : Nat) : List Edge :=
  (_graph.filter fun e => e.1 == i) ++
    ((_graph.filter fun e => e.2.1 == i).map invert)

/-- The query `Board.direction(src, dst)` on tile ids:
`next(e[2] for e in self._edges_for(src) if e[1] == dst.id)`;
`StopIteration` (= `NotAdjacentError`) when no edge matches. -/
def directionId (a b : Nat) : Except GenErr Dir :=
  match (_edges_for a).find? (fun e => e.2.1 == b) with
  | some e => .ok e.2.2
  | none => .error .notAdjacentError

/-- The query `Board.direction(src, dst)`: only the ids of the two tiles are used. -/
def direction (src dst : Tile) : Except GenErr Dir :=
  directionId src.id dst.id

/-- Graph adjacency of two tile ids: some stored edge joins them,
in either orientation. -/
def adjacentIds (a b : Nat) : Bool :=
  _graph.any fun e => (e.1 == a && e.2.1 == b) || (e.1 == b && e.2.1 == a)

/-- The default value of the `center` parameter of `Board.__init__`. -/
def defaultCenter : Nat := 1

/-- The assignment `self.center_tile = self.tiles[center or 10]` of `Board.__init__`:
Python's `or` takes `10` exactly when `center` is falsy (`0` / `None`,
modelled as `0`). Out-of-range indexing is modelled by `Option`. -/
def center_tile (tiles : List Tile) (center : Nat) : Option Tile :=
  tiles[if center == 0 then 10 else center]?

/-- The randomness the running program actually feeds one attempt:
shuffles are permutations of the pools, and the desert position is drawn
from `randrange(19)`. -/
def GoodInput (inp : AttemptInput) : Prop :=
  inp.terrain.Perm _terrain ∧ inp.numbers.Perm _numbers ∧ inp.desertPos ≤ 18

/-- The neighbor side of every edge returned by `_edges_for`. -/
def targets (s : Nat) : List Nat :=
  (_edges_for s).map fun e => e.2.1

/-- Every ordered pair of ids joined by some stored edge. -/
def pairList : List (Nat × Nat) :=
  _graph.flatMap fun e => [(e.1, e.2.1), (e.2.1, e.1)]

/-- Both `direction` lookups succeed and the two results are compass
inverses of each other. -/
def checkB (a b : Nat) : Bool :=
  match directionId a b, directionId b a with
  | .ok d1, .ok d2 => d2 == _direction_pairs d1
  | _, _ => false

/-- The red-adjacency invariant on a finished tile list: no edge of the
graph joins two tiles whose values both lie in `{6, 8}`. -/
def RedSafe (tiles : List Tile) : Prop :=
  ∀ e ∈ _graph, ∀ t1 t2 : Tile,
    tiles[e.1 - 1]? = some t1 → tiles[e.2.1 - 1]? = some t2 →
    ¬(isRed t1.value = true ∧ isRed t2.value = true)

/-- What `center_tile` actually designates: `tiles[center or 10]`, which with
the default `center = 1` is the tile at list index 1 (id 2); the index-10
tile (id 11) is selected only by a falsy `center`. -/
def CenterProp (tiles : List Tile) : Prop :=
  (∃ t, center_tile tiles defaultCenter = some t ∧ t.id = 2) ∧
  (∃ t, center_tile tiles 0 = some t ∧ t.id = 11)

/-- Exactly one desert tile carrying the `none` value, and ids stored in
order `1..19`. -/
def DesertUnique (tiles : List Tile) : Prop :=
  (tiles.filter fun t => t.terrain == 'D').length = 1 ∧
  (∀ t ∈ tiles, (t.terrain = 'D' ↔ t.value = none)) ∧
  tiles.map Tile.id = List.range' 1 19

/-- Both of `direction(a, b)` and `direction(b, a)` succeed and are mutual
inverses under the compass inverse table. -/
def MutualInverse (src dst : Tile) : Prop :=
  ∃ d, direction src dst = .ok d ∧ direction dst src = .ok (_direction_pairs d)

/-- The edge list `_edges_for s` has no duplicates, covers each graph-neighbor of `s`
exactly once, and nothing else. -/
def EdgesExact (s : Nat) : Prop :=
  (_edges_for s).Nodup ∧ (targets s).Nodup ∧
  (∀ n, n ∈ targets s ↔ adjacentIds s n = true)

/-- Tiles are traversed in stored id order `1..19`, and each pair of
consecutive ids is graph-adjacent. -/
def TraversalOrder (tiles : List Tile) : Prop :=
  tiles.map Tile.id = List.range' 1 19 ∧
  ∀ k ∈ List.range' 1 18, adjacentIds k (k + 1) = true

/-- A config with both keys, production randomization off. -/
def optsFF : Options :=
  [("randomize_production", false), ("randomize_ports", false)]

/-- A config with both keys, production randomization on. -/
def optsTF : Options :=
  [("randomize_production", true), ("randomize_ports", false)]

/-- A concrete attempt input: the unshuffled pools, desert inserted last. -/
def inp0 : AttemptInput := ⟨_terrain, _numbers, _ports, 18⟩

/-- The concrete board generated from `optsFF` and `inp0`. -/
def resFF : GenResult :=
  match generateLoop optsFF [inp0] with
  | .ok (some r) => r
  | _ => ⟨[], []⟩

/-- The concrete board generated from `optsTF` and `inp0` (the canonical
value arrangement passes the red check). -/
def resTF : GenResult :=
  match generateLoop optsTF [inp0] with
  | .ok (some r) => r
  | _ => ⟨[], []⟩

/- ### List helper lemmas -/

theorem map_insertIdx {α β : Type} (f : α → β) (a : α) :
    ∀ (k : Nat) (l : List α),
      (l.insertIdx k a).map f = (l.map f).insertIdx k (f a)
  | 0, _ => rfl
  | _ + 1, [] => rfl
  | k + 1, x :: xs => by
    simp only [List.insertIdx_succ_cons, List.map_cons, map_insertIdx f a k xs]

theorem insertIdx_perm_cons {α : Type} (a : α) :
    ∀ (k : Nat) (l : List α), k ≤ l.length →
      (l.insertIdx k a).Perm (a :: l)
  | 0, _, _ => List.Perm.refl _
  | _ + 1, [], h => absurd h (by simp)
  | k + 1, x :: xs, h => by
    simp only [List.insertIdx_succ_cons]
    exact ((insertIdx_perm_cons a k xs (by simpa using h)).cons x).trans
      (List.Perm.swap a x xs)

theorem reduceOption_map_some {α : Type} (l : List α) :
    (l.map some).reduceOption = l := by
  induction l with
  | nil => rfl
  | cons x xs ih => simp [List.reduceOption_cons_of_some, ih]

theorem reduceOption_insertIdx_none {α : Type} :
    ∀ (k : Nat) (l : List α),
      ((l.map some).insertIdx k none).reduceOption = l
  | 0, l => by simp [reduceOption_map_some]
  | _ + 1, [] => rfl
  | k + 1, x :: xs => by
    simp only [List.map_cons, List.insertIdx_succ_cons,
      List.reduceOption_cons_of_some, reduceOption_insertIdx_none k xs]

/- ### Structure of the generated tile list -/

theorem mkTiles_map_value (td : List (Char × Option Nat)) :
    (mkTiles td).map Tile.value = td.map Prod.snd := by
  conv_rhs => rw [← List.enum_map_snd td, List.map_map]
  simp only [mkTiles, List.map_map]
  exact List.map_congr_left fun p _ => rfl

theorem mkTiles_map_terrain (td : List (Char × Option Nat)) :
    (mkTiles td).map Tile.terrain = td.map Prod.fst := by
  conv_rhs => rw [← List.enum_map_snd td, List.map_map]
  simp only [mkTiles, List.map_map]
  exact List.map_congr_left fun p _ => rfl

theorem mkTiles_map_id (td : List (Char × Option Nat)) :
    (mkTiles td).map Tile.id = List.range' 1 td.length := by
  have h1 : (mkTiles td).map Tile.id = (td.enum.map Prod.fst).map (· + 1) := by
    simp only [mkTiles, List.map_map]
    exact List.map_congr_left fun p _ => rfl
  rw [h1, List.enum_map_fst, List.range'_eq_map_range]
  exact List.map_congr_left fun x _ => Nat.add_comm x 1

theorem mkTiles_getElem? (td : List (Char × Option Nat)) (j : Nat) :
    (mkTiles td)[j]? = td[j]?.map fun p => ⟨j + 1, p.1, p.2⟩ := by
  simp only [mkTiles, List.getElem?_map, List.getElem?_enum, Option.map_map]
  cases td[j]? <;> rfl

theorem mem_mkTiles {td : List (Char × Option Nat)} {t : Tile}
    (h : t ∈ mkTiles td) : (t.terrain, t.value) ∈ td := by
  obtain ⟨⟨i, p⟩, hmem, rfl⟩ := List.mem_map.mp h
  rw [List.enum_eq_zip_range] at hmem
  exact (List.of_mem_zip hmem).2

/- ### Success characterization of one generation attempt -/

theorem generateAttempt_ok {opts : Options} {inp : AttemptInput} {r : GenResult}
    (h : generateAttempt opts inp = .ok (some r)) :
    ∃ rp rps, opts.lookup "randomize_production" = some rp ∧
      opts.lookup "randomize_ports" = some rps ∧
      r.tiles = mkTiles (tileDataOf rp inp) ∧
      (rp = true → _check_red_placement (tileDataOf rp inp) = true) := by
  unfold generateAttempt at h
  cases hrp : opts.lookup "randomize_production" with
  | none => rw [hrp] at h; exact absurd h (by simp)
  | some rp =>
    cases hrps : opts.lookup "randomize_ports" with
    | none => rw [hrp, hrps] at h; exact absurd h (by simp)
    | some rps =>
      rw [hrp, hrps] at h
      dsimp only at h
      by_cases hc : (rp && !_check_red_placement (tileDataOf rp inp)) = true
      · rw [if_pos hc] at h; exact absurd h (by simp)
      · rw [if_neg hc] at h
        refine ⟨rp, rps, rfl, rfl, ?_, ?_⟩
        · have := (Except.ok.inj h)
          exact congrArg GenResult.tiles (Option.some.inj this).symm
        · intro hrpt
          subst hrpt
          simpa using hc

theorem generateLoop_ok {opts : Options} :
    ∀ {attempts : List AttemptInput} {r : GenResult},
      generateLoop opts attempts = .ok (some r) →
      ∃ inp ∈ attempts, generateAttempt opts inp = .ok (some r) := by
  intro attempts
  induction attempts with
  | nil => intro r h; exact absurd h (by simp [generateLoop])
  | cons a as ih =>
    intro r h
    unfold generateLoop at h
    cases hA : generateAttempt opts a with
    | error e => rw [hA] at h; exact absurd h (by simp)
    | ok o =>
      cases o with
      | some r' =>
        rw [hA] at h
        have : r' = r := Option.some.inj (Except.ok.inj h)
        exact ⟨a, List.mem_cons_self a as, this ▸ hA⟩
      | none =>
        rw [hA] at h
        obtain ⟨inp, hm, hi⟩ := ih h
        exact ⟨inp, List.mem_cons_of_mem a hm, hi⟩

/- ### Tile data under the program's actual randomness -/

theorem numbersUsed_perm {rp : Bool} {inp : AttemptInput}
    (h : inp.numbers.Perm _numbers) : (numbersUsed rp inp).Perm _numbers := by
  cases rp
  · exact List.Perm.refl _
  · simpa [numbersUsed] using h

theorem terrain_length {inp : AttemptInput} (h : inp.terrain.Perm _terrain) :
    inp.terrain.length = 18 := by
  simpa using h.length_eq

theorem numbersUsed_length {rp : Bool} {inp : AttemptInput}
    (h : inp.numbers.Perm _numbers) : (numbersUsed rp inp).length = 18 := by
  simpa using (@numbersUsed_perm rp inp h).length_eq

theorem tileData_map_snd {rp : Bool} {inp : AttemptInput} (hg : GoodInput inp) :
    (tileDataOf rp inp).map Prod.snd =
      ((numbersUsed rp inp).map some).insertIdx inp.desertPos none := by
  unfold tileDataOf
  rw [map_insertIdx]
  congr 1
  exact List.map_snd_zip _ _
    (by rw [List.length_map, terrain_length hg.1, numbersUsed_length hg.2.1])

theorem tileData_map_fst {rp : Bool} {inp : AttemptInput} (hg : GoodInput inp) :
    (tileDataOf rp inp).map Prod.fst =
      inp.terrain.insertIdx inp.desertPos 'D' := by
  unfold tileDataOf
  rw [map_insertIdx]
  congr 1
  exact List.map_fst_zip _ _
    (by rw [List.length_map, terrain_length hg.1, numbersUsed_length hg.2.1])

theorem tileData_zip_length {rp : Bool} {inp : AttemptInput} (hg : GoodInput inp) :
    (inp.terrain.zip ((numbersUsed rp inp).map some)).length = 18 := by
  rw [List.length_zip, List.length_map, terrain_length hg.1,
    numbersUsed_length hg.2.1]
  rfl

theorem tileData_length {rp : Bool} {inp : AttemptInput} (hg : GoodInput inp) :
    (tileDataOf rp inp).length = 19 := by
  unfold tileDataOf
  rw [List.length_insertIdx _ _ (by rw [tileData_zip_length hg]; exact hg.2.2),
    tileData_zip_length hg]

theorem tileData_values {rp : Bool} {inp : AttemptInput} (hg : GoodInput inp) :
    ((tileDataOf rp inp).map Prod.snd).reduceOption = numbersUsed rp inp := by
  rw [tileData_map_snd hg]
  exact reduceOption_insertIdx_none _ _

theorem tileData_terrain_count {rp : Bool} {inp : AttemptInput}
    (hg : GoodInput inp) (c : Char) :
    ((tileDataOf rp inp).map Prod.fst).count c = (('D' :: _terrain).count c) := by
  rw [tileData_map_fst hg]
  exact List.Perm.count_eq
    ((insertIdx_perm_cons 'D' _ _ (by rw [terrain_length hg.1]; exact hg.2.2)).trans
      (hg.1.cons 'D')) c

theorem tileData_mem_iff {rp : Bool} {inp : AttemptInput} (hg : GoodInput inp)
    {p : Char × Option Nat} (hp : p ∈ tileDataOf rp inp) :
    p.1 = 'D' ↔ p.2 = none := by
  unfold tileDataOf at hp
  rw [List.mem_insertIdx (by rw [tileData_zip_length hg]; exact hg.2.2)] at hp
  rcases hp with rfl | hp
  · simp
  · obtain ⟨c, v⟩ := p
    have h1 := List.of_mem_zip hp
    have hc : c ≠ 'D' := by
      intro hcd
      subst hcd
      have := hg.1.mem_iff.mp h1.1
      exact absurd this (by decide)
    have hv : v ≠ none := by
      obtain ⟨x, _, hx⟩ := List.mem_map.mp h1.2
      intro hvn
      rw [hvn] at hx
      exact Option.noConfusion hx
    simp [hc, hv]

/- ### Adjacency and directions -/

theorem mem_targets_iff (s n : Nat) :
    n ∈ targets s ↔ adjacentIds s n = true := by
  constructor
  · intro h
    obtain ⟨e, he, rfl⟩ := List.mem_map.mp h
    rcases List.mem_append.mp he with hf | hi
    · have := List.mem_filter.mp hf
      exact List.any_eq_true.mpr ⟨e, this.1, by simp [this.2]⟩
    · obtain ⟨e', he', rfl⟩ := List.mem_map.mp hi
      have := List.mem_filter.mp he'
      refine List.any_eq_true.mpr ⟨e', this.1, ?_⟩
      have h2 : e'.2.1 = s := by simpa using this.2
      simp [invert, h2]
  · intro h
    obtain ⟨e, he, hcond⟩ := List.any_eq_true.mp h
    rcases (by simpa using hcond : (e.1 = s ∧ e.2.1 = n) ∨ (e.1 = n ∧ e.2.1 = s))
      with ⟨h1, h2⟩ | ⟨h1, h2⟩
    · refine List.mem_map.mpr ⟨e, List.mem_append_left _ ?_, h2⟩
      exact List.mem_filter.mpr ⟨he, by simp [h1]⟩
    · refine List.mem_map.mpr ⟨invert e, List.mem_append_right _ ?_, h1⟩
      exact List.mem_map.mpr ⟨e, List.mem_filter.mpr ⟨he, by simp [h2]⟩, rfl⟩

theorem adjacent_mem_pairList {a b : Nat} (h : adjacentIds a b = true) :
    (a, b) ∈ pairList := by
  obtain ⟨e, he, hcond⟩ := List.any_eq_true.mp h
  rcases (by simpa using hcond : (e.1 = a ∧ e.2.1 = b) ∨ (e.1 = b ∧ e.2.1 = a))
    with ⟨h1, h2⟩ | ⟨h1, h2⟩
  · exact List.mem_flatMap.mpr ⟨e, he, by simp [h1, h2]⟩
  · exact List.mem_flatMap.mpr ⟨e, he, by simp [h1, h2]⟩

theorem checkB_spec {a b : Nat} (h : checkB a b = true) :
    ∃ d, directionId a b = .ok d ∧
      directionId b a = .ok (_direction_pairs d) := by
  unfold checkB at h
  cases h1 : directionId a b with
  | error e => rw [h1] at h; exact absurd h (by simp)
  | ok d1 =>
    cases h2 : directionId b a with
    | error e => rw [h1, h2] at h; exact absurd h (by simp)
    | ok d2 =>
      rw [h1, h2] at h
      exact ⟨d1, rfl, by rw [show d2 = _direction_pairs d1 from by simpa using h]⟩

theorem pairList_check : pairList.all (fun p => checkB p.1 p.2) = true := by
  decide

theorem edges_for_nodup_all :
    (List.range' 1 19).all
      (fun s => decide (_edges_for s).Nodup && decide (targets s).Nodup) =
      true := by
  decide

/- ### Facts shared by all successfully generated boards -/

theorem generateLoop_tiles {opts : Options} {attempts : List AttemptInput}
    {r : GenResult} (hA : ∀ inp ∈ attempts, GoodInput inp)
    (h : generateLoop opts attempts = .ok (some r)) :
    ∃ rp inp, GoodInput inp ∧
      opts.lookup "randomize_production" = some rp ∧
      r.tiles = mkTiles (tileDataOf rp inp) ∧
      (rp = true → _check_red_placement (tileDataOf rp inp) = true) := by
  obtain ⟨inp, hm, hi⟩ := generateLoop_ok h
  obtain ⟨rp, rps, hrp, _, htiles, hcheck⟩ := generateAttempt_ok hi
  exact ⟨rp, inp, hA inp hm, hrp, htiles, hcheck⟩

theorem board_ids {rp : Bool} {inp : AttemptInput} (hg : GoodInput inp) :
    (mkTiles (tileDataOf rp inp)).map Tile.id = List.range' 1 19 := by
  rw [mkTiles_map_id, tileData_length hg]

theorem board_values_perm {rp : Bool} {inp : AttemptInput} (hg : GoodInput inp) :
    ((mkTiles (tileDataOf rp inp)).map Tile.value).reduceOption.Perm _numbers := by
  rw [mkTiles_map_value, tileData_values hg]
  exact numbersUsed_perm hg.2.1

theorem board_terrain_count {rp : Bool} {inp : AttemptInput} (hg : GoodInput inp)
    (c : Char) :
    ((mkTiles (tileDataOf rp inp)).map Tile.terrain).count c =
      ('D' :: _terrain).count c := by
  rw [mkTiles_map_terrain]
  exact tileData_terrain_count hg c

theorem board_desert_iff {rp : Bool} {inp : AttemptInput} (hg : GoodInput inp)
    {t : Tile} (ht : t ∈ mkTiles (tileDataOf rp inp)) :
    t.terrain = 'D' ↔ t.value = none :=
  tileData_mem_iff hg (mem_mkTiles ht)

theorem tiles_id_at {tiles : List Tile}
    (hids : tiles.map Tile.id = List.range' 1 19) {j : Nat} (hj : j < 19) :
    ∃ t, tiles[j]? = some t ∧ t.id = 1 + j := by
  have hlen : tiles.length = 19 := by
    have := congrArg List.length hids
    simpa using this
  have hj' : j < tiles.length := by rw [hlen]; exact hj
  refine ⟨tiles.get ⟨j, hj'⟩, by simp [List.getElem?_eq_getElem hj'], ?_⟩
  have h1 := congrArg (fun l => l[j]?) hids
  simp only at h1
  rw [List.getElem?_map, List.getElem?_eq_getElem hj'] at h1
  have h2 := List.getElem?_range' 1 1 hj
  simp only [h2] at h1
  have := Option.some.inj h1
  simpa using this

/- ### The claims -/

/-- C1: every board returned by generation with `randomize_production = true`
satisfies the red-adjacency invariant: no edge of the fixed adjacency graph
joins two tiles whose values are both in `{6, 8}`. -/
theorem red_adjacency_invariant (opts : Options) (attempts : List AttemptInput)
    (hrp : opts.lookup "randomize_production" = some true)
    (r : GenResult) (h : generateLoop opts attempts = .ok (some r)) :
    RedSafe r.tiles := by
  obtain ⟨inp, _, hi⟩ := generateLoop_ok h
  obtain ⟨rp, rps, hrp2, _, htiles, hcheck⟩ := generateAttempt_ok hi
  have hrpt : rp = true := by
    rw [hrp] at hrp2
    exact (Option.some.inj hrp2).symm
  have hch := hcheck hrpt
  intro e he t1 t2 h1 h2
  have hall := List.all_eq_true.mp hch e he
  rw [htiles, mkTiles_getElem?] at h1 h2
  obtain ⟨p1, hp1, hf1⟩ := Option.map_eq_some'.mp h1
  obtain ⟨p2, hp2, hf2⟩ := Option.map_eq_some'.mp h2
  have hv1 : t1.value = p1.2 := by rw [← hf1]
  have hv2 : t2.value = p2.2 := by rw [← hf2]
  have hg1 : (tileDataOf rp inp).getD (e.1 - 1) ('?', none) = p1 := by
    rw [List.getD_eq_getElem?_getD, hp1]
    rfl
  have hg2 : (tileDataOf rp inp).getD (e.2.1 - 1) ('?', none) = p2 := by
    rw [List.getD_eq_getElem?_getD, hp2]
    rfl
  rintro ⟨hr1, hr2⟩
  rw [hv1] at hr1
  rw [hv2] at hr2
  rw [hg1, hg2, hr1, hr2] at hall
  simp at hall

/-- C1 witness: a concrete generation run with production randomization on. -/
theorem red_adjacency_invariant_witness : RedSafe resTF.tiles :=
  red_adjacency_invariant optsTF [inp0] rfl resTF rfl

/-- C2 counterexample: with the default `center` parameter, `center_tile` is
the tile at list index 1 (id 2) — not the tile of slot 10 under either
reading (index 10 holds the id-11 tile, and the id-10 tile sits at
index 9). -/
theorem center_tile_slot10_cex :
    center_tile resFF.tiles defaultCenter = some ⟨2, 'F', some 2⟩ ∧
    resFF.tiles[10]? = some ⟨11, 'H', some 8⟩ ∧
    resFF.tiles[9]? = some ⟨10, 'H', some 4⟩ ∧
    center_tile resFF.tiles defaultCenter ≠ resFF.tiles[10]? ∧
    center_tile resFF.tiles defaultCenter ≠ resFF.tiles[9]? := by
  decide

/-- C2 (amended): `center_tile` is `tiles[center or 10]` with default
`center = 1`: on every successful generation the default center tile is the
tile at index 1, carrying id 2; the index-10 tile (id 11) is designated only
when the caller supplies a falsy center index such as 0. -/
theorem center_tile_default_index_one (opts : Options)
    (attempts : List AttemptInput) (hA : ∀ inp ∈ attempts, GoodInput inp)
    (r : GenResult) (h : generateLoop opts attempts = .ok (some r)) :
    CenterProp r.tiles := by
  obtain ⟨rp, inp, hg, _, htiles, _⟩ := generateLoop_tiles hA h
  have hids : r.tiles.map Tile.id = List.range' 1 19 := by
    rw [htiles]
    exact board_ids hg
  constructor
  · obtain ⟨t, ht, hid⟩ := tiles_id_at hids (by decide : (1 : Nat) < 19)
    exact ⟨t, by rw [show center_tile r.tiles defaultCenter = r.tiles[1]? from rfl]; exact ht,
      by rw [hid]⟩
  · obtain ⟨t, ht, hid⟩ := tiles_id_at hids (by decide : (10 : Nat) < 19)
    exact ⟨t, by rw [show center_tile r.tiles 0 = r.tiles[10]? from rfl]; exact ht,
      by rw [hid]⟩

/-- C2 witness: the concrete `optsFF` generation run. -/
theorem center_tile_default_index_one_witness : CenterProp resFF.tiles :=
  center_tile_default_index_one optsFF [inp0]
    (by
      rw [List.forall_mem_singleton]
      exact ⟨List.Perm.refl _, List.Perm.refl _, by decide⟩)
    resFF rfl

/-- C3: when either config key is absent, generation fails immediately with
the configuration error (the `KeyError` of the dict access), both for a
single attempt and for the whole retry loop, producing no board. -/
theorem config_missing_fails (opts : Options)
    (h : opts.lookup "randomize_production" = none ∨
      opts.lookup "randomize_ports" = none) :
    (∀ inp, generateAttempt opts inp = .error .configurationError) ∧
    (∀ inp rest, generateLoop opts (inp :: rest) =
      .error .configurationError) := by
  have hA : ∀ inp, generateAttempt opts inp = .error .configurationError := by
    intro inp
    unfold generateAttempt
    rcases h with h1 | h2
    · rw [h1]
    · cases hrp : opts.lookup "randomize_production" with
      | none => rfl
      | some rp => rw [h2]
  refine ⟨hA, fun inp rest => ?_⟩
  unfold generateLoop
  rw [hA inp]

/-- C3 witness: a config lacking `randomize_production`. -/
theorem config_missing_fails_witness :
    generateAttempt [("randomize_ports", true)] inp0 =
      .error .configurationError :=
  (config_missing_fails [("randomize_ports", true)] (Or.inl rfl)).1 inp0

/-- C4: `direction` on a pair of tiles whose ids are not graph-adjacent
fails with the not-adjacent error (the `StopIteration` of the exhausted
generator). -/
theorem direction_not_adjacent_error (src dst : Tile)
    (h : adjacentIds src.id dst.id = false) :
    direction src dst = .error .notAdjacentError := by
  unfold direction directionId
  have hfind : (_edges_for src.id).find? (fun e => e.2.1 == dst.id) = none := by
    rw [List.find?_eq_none]
    intro e he hbeq
    have hmem : dst.id ∈ targets src.id :=
      List.mem_map.mpr ⟨e, he, by simpa using hbeq⟩
    rw [(mem_targets_iff _ _).mp hmem] at h
    exact Bool.noConfusion h
  rw [hfind]

/-- C4 witness: tiles 1 and 5 are not adjacent. -/
theorem direction_not_adjacent_error_witness :
    direction ⟨1, 'F', some 5⟩ ⟨5, 'P', some 8⟩ = .error .notAdjacentError :=
  direction_not_adjacent_error ⟨1, 'F', some 5⟩ ⟨5, 'P', some 8⟩ (by decide)

/-- C5: with both flags off, generation keeps the canonical numeric pool in
its fixed order as the sequence of non-null tile values, and the terrain
counts are F:4, P:4, H:4, M:3, C:3, D:1. -/
theorem canonical_values_and_terrain (opts : Options)
    (attempts : List AttemptInput)
    (hrp : opts.lookup "randomize_production" = some false)
    (hrps : opts.lookup "randomize_ports" = some false)
    (hA : ∀ inp ∈ attempts, GoodInput inp)
    (r : GenResult) (h : generateLoop opts attempts = .ok (some r)) :
    (r.tiles.map Tile.value).reduceOption = _numbers ∧
    (r.tiles.map Tile.terrain).count 'F' = 4 ∧
    (r.tiles.map Tile.terrain).count 'P' = 4 ∧
    (r.tiles.map Tile.terrain).count 'H' = 4 ∧
    (r.tiles.map Tile.terrain).count 'M' = 3 ∧
    (r.tiles.map Tile.terrain).count 'C' = 3 ∧
    (r.tiles.map Tile.terrain).count 'D' = 1 := by
  obtain ⟨rp, inp, hg, hrp2, htiles, _⟩ := generateLoop_tiles hA h
  have hrpf : rp = false := by
    rw [hrp] at hrp2
    exact (Option.some.inj hrp2).symm
  subst hrpf
  refine ⟨?_, ?_, ?_, ?_, ?_, ?_, ?_⟩
  · rw [htiles, mkTiles_map_value, tileData_values hg]
    rfl
  all_goals rw [htiles, board_terrain_count hg]
  all_goals decide

/-- C5 witness: the concrete run with both flags off and the desert last. -/
theorem canonical_values_and_terrain_witness :
    (resFF.tiles.map Tile.value).reduceOption = _numbers ∧
    (resFF.tiles.map Tile.terrain).count 'F' = 4 ∧
    (resFF.tiles.map Tile.terrain).count 'P' = 4 ∧
    (resFF.tiles.map Tile.terrain).count 'H' = 4 ∧
    (resFF.tiles.map Tile.terrain).count 'M' = 3 ∧
    (resFF.tiles.map Tile.terrain).count 'C' = 3 ∧
    (resFF.tiles.map Tile.terrain).count 'D' = 1 :=
  canonical_values_and_terrain optsFF [inp0] rfl rfl
    (by
      rw [List.forall_mem_singleton]
      exact ⟨List.Perm.refl _, List.Perm.refl _, by decide⟩)
    resFF rfl

/-- C6: under any config, every generated board has exactly one desert
tile, the desert is the only tile with value `none`, and the tile ids are
exactly `1..19` in stored order. -/
theorem desert_unique_and_ids (opts : Options) (attempts : List AttemptInput)
    (hA : ∀ inp ∈ attempts, GoodInput inp)
    (r : GenResult) (h : generateLoop opts attempts = .ok (some r)) :
    DesertUnique r.tiles := by
  obtain ⟨rp, inp, hg, _, htiles, _⟩ := generateLoop_tiles hA h
  refine ⟨?_, ?_, ?_⟩
  · rw [htiles, ← List.countP_eq_length_filter]
    have h1 : ((mkTiles (tileDataOf rp inp)).map Tile.terrain).count 'D' =
        List.countP (fun t => t.terrain == 'D')
          (mkTiles (tileDataOf rp inp)) := by
      rw [List.count_eq_countP, List.countP_map]
      rfl
    rw [← h1, board_terrain_count hg]
    decide
  · intro t ht
    rw [htiles] at ht
    exact board_desert_iff hg ht
  · rw [htiles]
    exact board_ids hg

/-- C6 witness: the concrete run with production randomization on. -/
theorem desert_unique_and_ids_witness : DesertUnique resTF.tiles :=
  desert_unique_and_ids optsTF [inp0]
    (by
      rw [List.forall_mem_singleton]
      exact ⟨List.Perm.refl _, List.Perm.refl _, by decide⟩)
    resTF rfl

/-- C7: for adjacent tiles, `direction(a, b)` and `direction(b, a)` both
succeed and are mutual inverses under the compass inverse table. -/
theorem direction_mutual_inverse (src dst : Tile)
    (h : adjacentIds src.id dst.id = true) : MutualInverse src dst := by
  have hp := adjacent_mem_pairList h
  have hchk := List.all_eq_true.mp pairList_check _ hp
  obtain ⟨d, h1, h2⟩ := checkB_spec hchk
  exact ⟨d, h1, h2⟩

/-- C7 witness: tiles 1 and 2 are adjacent. -/
theorem direction_mutual_inverse_witness :
    MutualInverse ⟨1, 'F', some 5⟩ ⟨2, 'F', some 2⟩ :=
  direction_mutual_inverse ⟨1, 'F', some 5⟩ ⟨2, 'F', some 2⟩ (by decide)

/-- C8: for every slot `1..19`, `_edges_for` returns no duplicate edges and
exactly one edge per graph-neighbor, and nothing else. -/
theorem edges_for_exact (s : Nat) (hs : s ∈ List.range' 1 19) :
    EdgesExact s := by
  have hall := List.all_eq_true.mp edges_for_nodup_all s hs
  rw [Bool.and_eq_true] at hall
  exact ⟨of_decide_eq_true hall.1, of_decide_eq_true hall.2,
    fun n => mem_targets_iff s n⟩

/-- C8 witness: slot 1. -/
theorem edges_for_exact_witness : EdgesExact 1 :=
  edges_for_exact 1 (by decide)

/-- C9: a generated board's tiles are stored in id order `1..19`, and every
pair of consecutive ids in that order is adjacent in the fixed graph. -/
theorem traversal_order_connected (opts : Options)
    (attempts : List AttemptInput) (hA : ∀ inp ∈ attempts, GoodInput inp)
    (r : GenResult) (h : generateLoop opts attempts = .ok (some r)) :
    TraversalOrder r.tiles := by
  obtain ⟨rp, inp, hg, _, htiles, _⟩ := generateLoop_tiles hA h
  exact ⟨by rw [htiles]; exact board_ids hg, by decide⟩

/-- C9 witness: the concrete run with both flags off. -/
theorem traversal_order_connected_witness : TraversalOrder resFF.tiles :=
  traversal_order_connected optsFF [inp0]
    (by
      rw [List.forall_mem_singleton]
      exact ⟨List.Perm.refl _, List.Perm.refl _, by decide⟩)
    resFF rfl

/-- C10: under any config, the multiset of non-`none` tile values of a
generated board is exactly the canonical numeric pool: shuffling and desert
insertion never add, drop, or change a value. -/
theorem value_multiset_invariant (opts : Options)
    (attempts : List AttemptInput) (hA : ∀ inp ∈ attempts, GoodInput inp)
    (r : GenResult) (h : generateLoop opts attempts = .ok (some r)) :
    ((r.tiles.map Tile.value).reduceOption).Perm _numbers := by
  obtain ⟨rp, inp, hg, _, htiles, _⟩ := generateLoop_tiles hA h
  rw [htiles]
  exact board_values_perm hg

/-- C10 witness: the concrete run with production randomization on. -/
theorem value_multiset_invariant_witness :
    ((resTF.tiles.map Tile.value).reduceOption).Perm _numbers :=
  value_multiset_invariant optsTF [inp0]
    (by
      rw [List.forall_mem_singleton]
      exact ⟨List.Perm.refl _, List.Perm.refl _, by decide⟩)
    resTF rfl

end Catan
